import Mathlib

/-!
Verification development for the fuel expense publisher script
(`scripts/read_from_excel.py`).

The script reads one cell of a spreadsheet (row = current month − 1,
column 5, no header row), wraps the value into the record
`{limit: 210, left: 210 − value, amount: value}`, serializes it with
the JSON serializer's default separators, and publishes the text to the
MQTT topic `car/bmw/fuel_load` from inside the client's on-connect
callback, disconnecting right after the publish.  The `main` entry
point catches `KeyboardInterrupt` around the read/publish sequence and
lets every other exception escape.

The development embeds each of these pieces as an executable Lean
definition and proves the specification's claims about them.
-/

namespace FuelBot

/-! ## Decimal printing of integers (model of Python `str` on int)

Python's `json.dumps` prints `int` values in plain decimal, with a
leading `-` for negative numbers.  `natDigitsAux` is fuel-based so that
it is structurally recursive and hence reducible by `decide`/`rfl`;
`natDigits n` always calls it with enough fuel. -/

def natDigitsAux : Nat → Nat → List Char
  | 0, _ => []
  | fuel + 1, n =>
    if n < 10 then [Nat.digitChar n]
    else natDigitsAux fuel (n / 10) ++ [Nat.digitChar (n % 10)]

def natDigits (n : Nat) : List Char := natDigitsAux (n + 1) n

def intDigits : Int → List Char
  | Int.ofNat n => natDigits n
  | Int.negSucc n => '-' :: natDigits (n + 1)

def intToString (i : Int) : String := ⟨intDigits i⟩

/-! ## JSON serialization (model of `json.dumps` on a flat dict of ints)

Python dicts preserve insertion order, so a flat dict of integer values
is modelled as an association list.  With the default separators,
`json.dumps` joins the `"key": value` entries with `", "` inside
braces. -/

def dumps_entry (kv : String × Int) : String :=
  "\"" ++ kv.1 ++ "\": " ++ intToString kv.2

def joinSep (sep : String) : List String → String
  | [] => ""
  | [x] => x
  | x :: xs => x ++ sep ++ joinSep sep xs

def json_dumps (fields : List (String × Int)) : String :=
  "\x7b" ++ joinSep ", " (fields.map dumps_entry) ++ "\x7d"

/-! ## JSON parsing (a parser for flat objects with integer values)

Used to state the round-trip and field-order claims.  The parser is
fuel-based (the fuel bounds the number of members) so that it stays
structurally recursive and computable by `decide`. -/

def skipSpaces : List Char → List Char
  | [] => []
  | c :: cs => if c = ' ' then skipSpaces cs else c :: cs

def headIsDigit : List Char → Bool
  | [] => false
  | c :: _ => c.isDigit

def parseDigits : List Char → Nat → Nat × List Char
  | [], acc => (acc, [])
  | c :: cs, acc =>
    if c.isDigit then parseDigits cs (acc * 10 + (c.toNat - 48))
    else (acc, c :: cs)

def parseNat (cs : List Char) : Option (Nat × List Char) :=
  if headIsDigit cs then some (parseDigits cs 0) else none

def parseInt (cs : List Char) : Option (Int × List Char) :=
  match cs with
  | [] => none
  | c :: rest =>
    if c = '-' then
      match parseNat rest with
      | some (n, r) => some (-(n : Int), r)
      | none => none
    else
      match parseNat (c :: rest) with
      | some (n, r) => some ((n : Int), r)
      | none => none

def parseStringBody : List Char → List Char → Option (String × List Char)
  | [], _ => none
  | c :: cs, acc =>
    if c = '"' then some (⟨acc.reverse⟩, cs) else parseStringBody cs (c :: acc)

def parseStringLit (cs : List Char) : Option (String × List Char) :=
  match cs with
  | [] => none
  | c :: rest => if c = '"' then parseStringBody rest [] else none

def expectChar (c : Char) (cs : List Char) : Option (List Char) :=
  match cs with
  | [] => none
  | d :: rest => if d = c then some rest else none

def parseMembers : Nat → List Char → Option (List (String × Int) × List Char)
  | 0, _ => none
  | fuel + 1, cs =>
    match parseStringLit (skipSpaces cs) with
    | none => none
    | some (key, r1) =>
      match expectChar ':' (skipSpaces r1) with
      | none => none
      | some r2 =>
        match parseInt (skipSpaces r2) with
        | none => none
        | some (v, r3) =>
          match skipSpaces r3 with
          | [] => none
          | c :: r4 =>
            if c = ',' then
              match parseMembers fuel r4 with
              | none => none
              | some (ms, r5) => some ((key, v) :: ms, r5)
            else if c = '\x7d' then some ([(key, v)], r4)
            else none

def parseObject (fuel : Nat) (cs : List Char) :
    Option (List (String × Int) × List Char) :=
  match skipSpaces cs with
  | [] => none
  | c :: rest =>
    if c = '\x7b' then
      match skipSpaces rest with
      | [] => none
      | d :: rest2 =>
        if d = '\x7d' then some ([], rest2)
        else parseMembers fuel (d :: rest2)
    else none

def json_loads (s : String) : Option (List (String × Int)) :=
  match parseObject (s.length + 1) s.data with
  | some (obj, rest) => if skipSpaces rest = [] then some obj else none
  | none => none

/-! ## The message builder (from `send_mqtt_message`, lines 24-30) -/

def limit : Int := 210

def message (value : Int) : List (String × Int) :=
  [("limit", limit), ("left", limit - value), ("amount", value)]

def json_message (value : Int) : String := json_dumps (message value)

def broker_address : String := "localhost"

def mqtt_topic : String := "car/bmw/fuel_load"

/-! ## The value reader (from `read_value_from_file`, lines 8-14)

`pd.read_excel(file_path, header=None)` yields the sheet's rows as
data rows; with `header=n` the rows up to and including row `n` would
be consumed as the header.  `.iloc[r, c]` fails (raises) when the
index is out of range, modelled by `Option`. -/

def read_excel (rows : List (List Int)) (header : Option Nat) :
    List (List Int) :=
  match header with
  | none => rows
  | some h => rows.drop (h + 1)

def read_value_from_file (rows : List (List Int)) (current_month : Nat) :
    Option Int :=
  let row_index := current_month - 1
  let column_index := 5
  let df := read_excel rows none
  (df.get? row_index).bind fun r => r.get? column_index

/-! ## The MQTT publisher (from `on_connect` lines 16-21 and
`send_mqtt_message` lines 32-39)

The paho client is event-driven: the network loop delivers connection
acknowledgments (each carrying a reason code, 0 meaning success) and
runs the registered callback for each.  `loop_forever` keeps serving
events until the callback calls `disconnect`.  A run of the publisher
is modelled as the trace produced from an arbitrary list of delivered
reason codes. -/

inductive Action where
  | print (s : String)
  | publish (topic payload : String)
  | disconnect
deriving DecidableEq, Repr, BEq

def on_connect (userdata : String × String) (reason_code : Nat) :
    List Action :=
  [Action.print ("Connected with result code " ++ toString reason_code),
   Action.publish userdata.1 userdata.2,
   Action.print "Message published",
   Action.disconnect,
   Action.print "Disconnected"]

inductive TraceItem where
  | connectTo (addr : String)
  | connAck (reason_code : Nat)
  | act (a : Action)
deriving DecidableEq, Repr

def runCallbacks (acts : List Action) : List TraceItem :=
  acts.map TraceItem.act

def client_loop (userdata : String × String) : List Nat → List TraceItem
  | [] => []
  | rc :: rest =>
    let acts := on_connect userdata rc
    TraceItem.connAck rc :: (runCallbacks acts ++
      (if acts.contains Action.disconnect then [] else client_loop userdata rest))

def send_mqtt_message_trace (value : Int) (events : List Nat) :
    List TraceItem :=
  let json_msg := json_message value
  let userdata := (mqtt_topic, json_msg)
  TraceItem.connectTo broker_address ::
    TraceItem.act (Action.print "Connecting...") ::
    client_loop userdata events

def TraceItem.isPub : TraceItem → Bool
  | TraceItem.act (Action.publish _ _) => true
  | _ => false

def TraceItem.isDisc : TraceItem → Bool
  | TraceItem.act Action.disconnect => true
  | _ => false

def TraceItem.isAck : TraceItem → Bool
  | TraceItem.connAck _ => true
  | _ => false

def publishedMessages (t : List TraceItem) : List (String × String) :=
  t.filterMap fun i =>
    match i with
    | TraceItem.act (Action.publish tp p) => some (tp, p)
    | _ => none

def mqttOps (acts : List Action) : List Action :=
  acts.filter fun a =>
    match a with
    | Action.print _ => false
    | _ => true

def trace_prints (t : List TraceItem) : List String :=
  t.filterMap fun i =>
    match i with
    | TraceItem.act (Action.print s) => some s
    | _ => none

def send_mqtt_publishes (value : Int) (events : List Nat) :
    List (String × String) :=
  publishedMessages (send_mqtt_message_trace value events)

def run_publishes (rows : List (List Int)) (month : Nat)
    (events : List Nat) : Option (List (String × String)) :=
  (read_value_from_file rows month).map fun v => send_mqtt_publishes v events

/-! ## The entry point (from `main`, lines 41-50)

`main` resolves the home directory, prints the file path, and only then
enters a `try` block around the read and the publish; the `except`
clause catches `KeyboardInterrupt` alone.  The model makes the
exception behaviour of the environment explicit: `env p` tells whether
the external operation at program point `p` raises, and which
exception.  A step that raises produces no output.  A failed cell
lookup is an `IndexError` raised by the read. -/

inductive Exc where
  | keyboardInterrupt
  | other (msg : String)
deriving DecidableEq, Repr

inductive ProgPoint where
  | expandUser
  | printPath
  | readFile
  | printRead
  | sendMsg
deriving DecidableEq, Repr

def file_path (home_dir : String) : String :=
  home_dir ++ "/OneDrive/Gasolina.xlsx"

def main_model (home_dir : String) (rows : List (List Int)) (month : Nat)
    (events : List Nat) (env : ProgPoint → Option Exc) :
    List String × Option Exc :=
  match env ProgPoint.expandUser with
  | some e => ([], some e)
  | none =>
    match env ProgPoint.printPath with
    | some e => ([], some e)
    | none =>
      let body : List String × Option Exc :=
        match env ProgPoint.readFile with
        | some e => ([], some e)
        | none =>
          match read_value_from_file rows month with
          | none => ([], some (Exc.other "IndexError"))
          | some v =>
            match env ProgPoint.printRead with
            | some e => ([], some e)
            | none =>
              match env ProgPoint.sendMsg with
              | some e => (["Read:  " ++ intToString v], some e)
              | none =>
                (("Read:  " ++ intToString v) ::
                  trace_prints (send_mqtt_message_trace v events), none)
      let handled : List String × Option Exc :=
        match body.2 with
        | some Exc.keyboardInterrupt =>
          (body.1 ++ ["Process interrupted by user"], none)
        | _ => body
      (file_path home_dir :: handled.1, handled.2)

def raiseAt (p0 : ProgPoint) (e : Exc) : ProgPoint → Option Exc :=
  fun p => if p = p0 then some e else none

def noRaise : ProgPoint → Option Exc := fun _ => none

/-- A concrete spreadsheet: 3 rows, row 2 holding 120 in column 5. -/
def testGrid : List (List Int) :=
  [[0, 0, 0, 0, 0, 0], [0, 0, 0, 0, 0, 0], [0, 0, 0, 0, 0, 120]]

/-! ## Correctness of the decimal printer against the parser -/

theorem digitChar_isDigit {k : Nat} (h : k < 10) :
    (Nat.digitChar k).isDigit = true := by
  interval_cases k <;> decide

theorem digitChar_val {k : Nat} (h : k < 10) :
    (Nat.digitChar k).toNat - 48 = k := by
  interval_cases k <;> decide

theorem natDigitsAux_cons {fuel : Nat} :
    ∀ {n : Nat}, n < fuel →
      ∃ c t, natDigitsAux fuel n = c :: t ∧ c.isDigit = true := by
  induction fuel with
  | zero => intro n h; omega
  | succ f ih =>
    intro n h
    rw [natDigitsAux]
    by_cases h10 : n < 10
    · exact ⟨Nat.digitChar n, [], by simp [h10], digitChar_isDigit h10⟩
    · have hf : n / 10 < f := by
        have := Nat.div_lt_self (by omega : 0 < n) (by omega : 1 < 10)
        omega
      obtain ⟨c, t, hct, hd⟩ := ih hf
      exact ⟨c, t ++ [Nat.digitChar (n % 10)], by simp [h10, hct], hd⟩

theorem parseDigits_natDigitsAux {fuel : Nat} :
    ∀ {n : Nat}, n < fuel → ∀ (rest : List Char) (acc : Nat),
      parseDigits (natDigitsAux fuel n ++ rest) acc
        = parseDigits rest (acc * 10 ^ (natDigitsAux fuel n).length + n) := by
  induction fuel with
  | zero => intro n h; omega
  | succ f ih =>
    intro n h rest acc
    rw [natDigitsAux]
    by_cases h10 : n < 10
    · simp only [h10, if_true, List.cons_append, List.nil_append,
        List.length_cons, List.length_nil]
      rw [parseDigits]
      simp [digitChar_isDigit h10, digitChar_val h10]
    · have hf : n / 10 < f := by
        have := Nat.div_lt_self (by omega : 0 < n) (by omega : 1 < 10)
        omega
      simp only [h10, if_false, List.append_assoc, List.singleton_append]
      rw [ih hf]
      rw [parseDigits]
      simp only [digitChar_isDigit (Nat.mod_lt n (by omega)),
        digitChar_val (Nat.mod_lt n (by omega)), if_true]
      have harith :
          (acc * 10 ^ (natDigitsAux f (n / 10)).length + n / 10) * 10 + n % 10
            = acc * 10 ^ ((natDigitsAux f (n / 10)).length + 1) + n := by
        have hdm := Nat.div_add_mod n 10
        have : (acc * 10 ^ (natDigitsAux f (n / 10)).length + n / 10) * 10 + n % 10
            = acc * (10 ^ (natDigitsAux f (n / 10)).length * 10)
              + (10 * (n / 10) + n % 10) := by ring
        rw [this, hdm, pow_succ]
      rw [harith]
      simp [List.length_append]

theorem parseDigits_stop {rest : List Char} (h : headIsDigit rest = false)
    (acc : Nat) : parseDigits rest acc = (acc, rest) := by
  cases rest with
  | nil => rfl
  | cons c t =>
    simp only [headIsDigit] at h
    rw [parseDigits]
    simp [h]

theorem natDigits_cons (n : Nat) :
    ∃ c t, natDigits n = c :: t ∧ c.isDigit = true :=
  natDigitsAux_cons (Nat.lt_succ_self n)

theorem headIsDigit_natDigits_append (n : Nat) (rest : List Char) :
    headIsDigit (natDigits n ++ rest) = true := by
  obtain ⟨c, t, hct, hd⟩ := natDigits_cons n
  rw [hct]
  simpa [headIsDigit] using hd

theorem parseNat_natDigits (n : Nat) (rest : List Char)
    (h : headIsDigit rest = false) :
    parseNat (natDigits n ++ rest) = some (n, rest) := by
  rw [parseNat, headIsDigit_natDigits_append, if_pos rfl]
  rw [natDigits, parseDigits_natDigitsAux (Nat.lt_succ_self n)]
  rw [parseDigits_stop h]
  simp

theorem parseInt_intDigits (i : Int) (rest : List Char)
    (h : headIsDigit rest = false) :
    parseInt (intDigits i ++ rest) = some (i, rest) := by
  cases i with
  | ofNat n =>
    obtain ⟨c, t, hct, hd⟩ := natDigits_cons n
    have hcm : c ≠ '-' := by
      intro he; subst he; simp at hd
    have : intDigits (Int.ofNat n) ++ rest = c :: (t ++ rest) := by
      simp [intDigits, hct]
    rw [this, parseInt]
    simp only [hcm, if_false]
    have hback : c :: (t ++ rest) = natDigits n ++ rest := by
      simp [hct]
    rw [hback, parseNat_natDigits n rest h]
    rfl
  | negSucc n =>
    have : intDigits (Int.negSucc n) ++ rest
        = '-' :: (natDigits (n + 1) ++ rest) := by
      simp [intDigits]
    rw [this, parseInt]
    simp only [if_pos rfl]
    rw [parseNat_natDigits (n + 1) rest h]
    simp [Int.negSucc_eq]

theorem skipSpaces_intDigits (i : Int) (rest : List Char) :
    skipSpaces (intDigits i ++ rest) = intDigits i ++ rest := by
  cases i with
  | ofNat n =>
    obtain ⟨c, t, hct, hd⟩ := natDigits_cons n
    have hs : c ≠ ' ' := by intro he; subst he; simp at hd
    simp [intDigits, hct, skipSpaces, hs]
  | negSucc n =>
    simp [intDigits, skipSpaces]

/-! ## Character-level shape of the serialized message -/

theorem json_message_data (v : Int) :
    (json_message v).data =
      ['\x7b', '"', 'l', 'i', 'm', 'i', 't', '"', ':', ' ', '2', '1', '0',
       ',', ' ', '"', 'l', 'e', 'f', 't', '"', ':', ' ']
      ++ (intDigits (limit - v)
      ++ ([',', ' ', '"', 'a', 'm', 'o', 'u', 'n', 't', '"', ':', ' ']
      ++ (intDigits v ++ ['\x7d']))) := by
  have h1 : ("\x7b" : String).data = ['\x7b'] := rfl
  have h2 : ("\x7d" : String).data = ['\x7d'] := rfl
  have h3 : (", " : String).data = [',', ' '] := rfl
  have h4 : ("\"" : String).data = ['"'] := rfl
  have h5 : ("limit" : String).data = ['l', 'i', 'm', 'i', 't'] := rfl
  have h6 : ("left" : String).data = ['l', 'e', 'f', 't'] := rfl
  have h7 : ("amount" : String).data = ['a', 'm', 'o', 'u', 'n', 't'] := rfl
  have h8 : ("\": " : String).data = ['"', ':', ' '] := rfl
  have h9 : (intToString limit).data = ['2', '1', '0'] := rfl
  have h10 : ∀ i : Int, (intToString i).data = intDigits i := fun _ => rfl
  simp only [json_message, json_dumps, message, List.map, joinSep, dumps_entry,
    String.data_append, h1, h2, h3, h4, h5, h6, h7, h8, h9, h10,
    List.append_assoc, List.cons_append, List.nil_append]

theorem json_message_length (v : Int) :
    (json_message v).length =
      35 + ((intDigits (limit - v)).length + (intDigits v).length) + 1 := by
  have h : (json_message v).length = (json_message v).data.length := rfl
  rw [h, json_message_data]
  simp [List.length_append]
  omega

theorem json_message_data_sym (v : Int) :
    (json_message v).data =
      ['\x7b', '"', 'l', 'i', 'm', 'i', 't', '"', ':', ' ']
      ++ (intDigits limit
      ++ ([',', ' ', '"', 'l', 'e', 'f', 't', '"', ':', ' ']
      ++ (intDigits (limit - v)
      ++ ([',', ' ', '"', 'a', 'm', 'o', 'u', 'n', 't', '"', ':', ' ']
      ++ (intDigits v ++ ['\x7d']))))) := by
  have h1 : ("\x7b" : String).data = ['\x7b'] := rfl
  have h2 : ("\x7d" : String).data = ['\x7d'] := rfl
  have h3 : (", " : String).data = [',', ' '] := rfl
  have h4 : ("\"" : String).data = ['"'] := rfl
  have h5 : ("limit" : String).data = ['l', 'i', 'm', 'i', 't'] := rfl
  have h6 : ("left" : String).data = ['l', 'e', 'f', 't'] := rfl
  have h7 : ("amount" : String).data = ['a', 'm', 'o', 'u', 'n', 't'] := rfl
  have h8 : ("\": " : String).data = ['"', ':', ' '] := rfl
  have h10 : ∀ i : Int, (intToString i).data = intDigits i := fun _ => rfl
  simp only [json_message, json_dumps, message, List.map, joinSep, dumps_entry,
    String.data_append, h1, h2, h3, h4, h5, h6, h7, h8, h10,
    List.append_assoc, List.cons_append, List.nil_append]

/-! ## The round trip through the parser -/

theorem json_loads_json_message (v : Int) :
    json_loads (json_message v) = some (message v) := by
  obtain ⟨k, hk⟩ : ∃ k, (json_message v).length + 1 = k + 3 :=
    ⟨(json_message v).length - 2, by rw [json_message_length]; omega⟩
  have hcomma : (',').isDigit = false := rfl
  have hbrace : ('\x7d').isDigit = false := rfl
  have hdc2 : Nat.digitChar 2 = '2' := rfl
  have hdc1 : Nat.digitChar 1 = '1' := rfl
  have hdc0 : Nat.digitChar 0 = '0' := rfl
  have h210 : ∀ t : List Char, headIsDigit t = false →
      parseInt ('2' :: '1' :: '0' :: t) = some ((210 : Int), t) :=
    fun t ht => parseInt_intDigits 210 t ht
  simp only [json_loads, hk, json_message_data_sym]
  simp [parseObject, parseMembers, skipSpaces, parseStringLit,
    parseStringBody, expectChar, headIsDigit,
    skipSpaces_intDigits, parseInt_intDigits, hcomma, hbrace,
    hdc2, hdc1, hdc0, h210]
  rfl

/-! ## Shared facts about the publisher trace -/

theorem send_publishes_cons (v : Int) (rc : Nat) (rest : List Nat) :
    send_mqtt_publishes v (rc :: rest) = [(mqtt_topic, json_message v)] := rfl

/-! ## The claims -/

/-- C1: for every numeric fuel value v, the record built before publishing
satisfies left = 210 − v, limit = 210, and amount = v. -/
theorem message_fields_correct (v : Int) :
    (message v).lookup "limit" = some 210
  ∧ (message v).lookup "left" = some (210 - v)
  ∧ (message v).lookup "amount" = some v :=
  ⟨rfl, rfl, rfl⟩

/-- C2: for every current month m in 1..12, the value reader reads the cell
at row index m − 1 and column index 5 of the spreadsheet (read with no
header row, so row 0 of the file is row 0 of the data) and returns that
cell's content. -/
theorem read_value_row_col (rows : List (List Int)) (m : Nat)
    (h1 : 1 ≤ m) (h2 : m ≤ 12) :
    read_value_from_file rows m = (rows.get? (m - 1)).bind fun r => r.get? 5 :=
  rfl

/-- C2 witness: with the concrete grid and month 3 the reader returns the
cell at row 2, column 5, namely 120. -/
theorem read_value_row_col_witness :
    read_value_from_file testGrid 3 = ((testGrid.get? 2).bind fun r => r.get? 5)
  ∧ read_value_from_file testGrid 3 = some 120 :=
  ⟨read_value_row_col testGrid 3 (by decide) (by decide), by decide⟩

/-- C3 counterexample: in the month-3 scenario with cell (2,5) = 120, the
published payload is not the compact string claimed by the spec (the
serializer's default separators put a space after each colon and comma). -/
theorem published_payload_compact_cex :
    run_publishes testGrid 3 [0] ≠
      some [("car/bmw/fuel_load",
        "\x7b\"limit\":210,\"left\":90,\"amount\":120\x7d")] := by
  decide

/-- C3 amended: in the end-to-end scenario where the current month is 3 and
the spreadsheet cell at row 2, column 5 holds 120, the payload published is
exactly the string with spaced separators, and it is published to topic
car/bmw/fuel_load. -/
theorem published_payload_march (rows : List (List Int))
    (h : (rows.get? 2).bind (fun r => r.get? 5) = some 120)
    (rc : Nat) (rest : List Nat) :
    run_publishes rows 3 (rc :: rest) =
      some [("car/bmw/fuel_load",
        "\x7b\"limit\": 210, \"left\": 90, \"amount\": 120\x7d")] := by
  have hr : read_value_from_file rows 3 = some 120 := h
  simp [run_publishes, hr, send_publishes_cons]
  exact ⟨rfl, rfl⟩

/-- C3 witness: the amended statement at the concrete grid and one
successful connection acknowledgment. -/
theorem published_payload_march_witness :
    run_publishes testGrid 3 [0] =
      some [("car/bmw/fuel_load",
        "\x7b\"limit\": 210, \"left\": 90, \"amount\": 120\x7d")] :=
  published_payload_march testGrid (by decide) 0 []

/-- C4 counterexample: when the broker delivers a failure acknowledgment
(reason code 135, never a success code 0), the run still publishes — so the
publish does not happen "only upon successful connection establishment". -/
theorem publish_without_success_ack_cex :
    ((send_mqtt_message_trace 120 [135]).countP (fun i => i.isPub) = 1)
  ∧ (TraceItem.connAck 0) ∉ (send_mqtt_message_trace 120 [135]) :=
  ⟨by decide, by decide⟩

/-- C4 amended: in every run in which at least one connection
acknowledgment is delivered, the publisher publishes the message exactly
once — upon the first acknowledgment, whatever its reason code — and
disconnects right after the publish (only a log print stands between
them); it never publishes twice and never publishes before the
acknowledgment arrives (the publish sits at index 4 of the trace, after
the single acknowledgment at index 2). -/
theorem publish_once_per_run (v : Int) (rc : Nat) (rest : List Nat) :
    ((send_mqtt_message_trace v (rc :: rest)).countP (fun i => i.isPub) = 1)
  ∧ ((send_mqtt_message_trace v (rc :: rest)).countP (fun i => i.isDisc) = 1)
  ∧ ((send_mqtt_message_trace v (rc :: rest)).countP (fun i => i.isAck) = 1)
  ∧ publishedMessages (send_mqtt_message_trace v (rc :: rest))
      = [(mqtt_topic, json_message v)]
  ∧ (send_mqtt_message_trace v (rc :: rest)).get? 2
      = some (TraceItem.connAck rc)
  ∧ (send_mqtt_message_trace v (rc :: rest)).get? 4
      = some (TraceItem.act (Action.publish mqtt_topic (json_message v)))
  ∧ (send_mqtt_message_trace v (rc :: rest)).get? 5
      = some (TraceItem.act (Action.print "Message published"))
  ∧ (send_mqtt_message_trace v (rc :: rest)).get? 6
      = some (TraceItem.act Action.disconnect) :=
  ⟨rfl, rfl, rfl, rfl, rfl, rfl, rfl, rfl⟩

/-- C5 counterexample: a KeyboardInterrupt raised at the home-directory
resolution step — which sits before the try block in `main` — is not
caught: the run ends with the exception propagating and no interrupt
message printed. -/
theorem interrupt_before_try_cex :
    main_model "/home/user" testGrid 3 [0]
        (raiseAt ProgPoint.expandUser Exc.keyboardInterrupt)
      = ([], some Exc.keyboardInterrupt) := by
  decide

/-- C5 amended: a KeyboardInterrupt raised inside the try block (during the
file read, the value print, or the publish) is caught, the interrupt
message is printed, and the run returns without re-raising; every other
exception propagates unhandled from any step; and a KeyboardInterrupt
raised before the try block (home-directory resolution or the path print)
propagates unhandled as well. -/
theorem interrupt_handling (home : String) (rows : List (List Int))
    (month : Nat) (events : List Nat) (v : Int) (s : String)
    (hv : read_value_from_file rows month = some v) :
    (∀ p, p = ProgPoint.readFile ∨ p = ProgPoint.printRead ∨ p = ProgPoint.sendMsg →
        (main_model home rows month events (raiseAt p Exc.keyboardInterrupt)).2 = none
      ∧ "Process interrupted by user"
          ∈ (main_model home rows month events (raiseAt p Exc.keyboardInterrupt)).1)
  ∧ (∀ p, (main_model home rows month events (raiseAt p (Exc.other s))).2
        = some (Exc.other s))
  ∧ (main_model home rows month events
      (raiseAt ProgPoint.expandUser Exc.keyboardInterrupt)).2
        = some Exc.keyboardInterrupt
  ∧ (main_model home rows month events
      (raiseAt ProgPoint.printPath Exc.keyboardInterrupt)).2
        = some Exc.keyboardInterrupt := by
  refine ⟨?_, ?_, ?_, ?_⟩
  · rintro p (rfl | rfl | rfl) <;>
      exact ⟨by simp [main_model, raiseAt, hv], by simp [main_model, raiseAt, hv]⟩
  · intro p
    cases p <;> simp [main_model, raiseAt, hv]
  · simp [main_model, raiseAt]
  · simp [main_model, raiseAt]

/-- C5 witness: at the concrete run, an interrupt in the publish step is
caught while a file error in the read step propagates. -/
theorem interrupt_handling_witness :
    (main_model "/home/user" testGrid 3 [0]
        (raiseAt ProgPoint.sendMsg Exc.keyboardInterrupt)).2 = none
  ∧ (main_model "/home/user" testGrid 3 [0]
        (raiseAt ProgPoint.readFile (Exc.other "FileNotFoundError"))).2
      = some (Exc.other "FileNotFoundError") := by
  have h := interrupt_handling "/home/user" testGrid 3 [0] 120
    "FileNotFoundError" (by decide)
  exact ⟨(h.1 ProgPoint.sendMsg (Or.inr (Or.inr rfl))).1,
    h.2.1 ProgPoint.readFile⟩

/-- C6: for every record built by the message builder, parsing the
serialized JSON text back yields the original limit/left/amount triple
exactly. -/
theorem loads_dumps_roundtrip (v : Int) :
    json_loads (json_message v) = some (message v) :=
  json_loads_json_message v

/-- C7: for every fuel value v, the serialized message's fields appear in
the order limit, left, amount. -/
theorem serialized_field_order (v : Int) :
    ∃ fields, json_loads (json_message v) = some fields
      ∧ fields.map Prod.fst = ["limit", "left", "amount"] :=
  ⟨message v, json_loads_json_message v, rfl⟩

/-- C8: for every connection reason code delivered to the on_connect
callback — including codes signalling a failed connection — the callback
performs the same MQTT operations: it publishes the stored topic and
message (userdata components 0 and 1) and then disconnects, independently
of the reason code. -/
theorem on_connect_ignores_reason_code (ud : String × String) (rc rc' : Nat) :
    mqttOps (on_connect ud rc) = [Action.publish ud.1 ud.2, Action.disconnect]
  ∧ mqttOps (on_connect ud rc) = mqttOps (on_connect ud rc') :=
  ⟨rfl, rfl⟩

/-- C9: for every fuel value v, the serialized payload uses the JSON
default separators — a space after each colon and each comma — and is not
the compact form without spaces. -/
theorem payload_uses_spaced_separators (v : Int) :
    json_message v = "\x7b\"limit\": 210, \"left\": " ++ intToString (210 - v)
        ++ ", \"amount\": " ++ intToString v ++ "\x7d"
  ∧ json_message v ≠ "\x7b\"limit\":210,\"left\":" ++ intToString (210 - v)
        ++ ",\"amount\":" ++ intToString v ++ "\x7d" := by
  constructor
  · apply String.ext
    rw [json_message_data]
    have ha : ("\x7b\"limit\": 210, \"left\": " : String).data
        = ['\x7b', '"', 'l', 'i', 'm', 'i', 't', '"', ':', ' ', '2', '1', '0',
           ',', ' ', '"', 'l', 'e', 'f', 't', '"', ':', ' '] := rfl
    have hb : (", \"amount\": " : String).data
        = [',', ' ', '"', 'a', 'm', 'o', 'u', 'n', 't', '"', ':', ' '] := rfl
    have hc : ("\x7d" : String).data = ['\x7d'] := rfl
    have h10 : ∀ i : Int, (intToString i).data = intDigits i := fun _ => rfl
    simp only [String.data_append, ha, hb, hc, h10, limit,
      List.append_assoc, List.cons_append, List.nil_append]
  · intro h
    have h9 : (json_message v).data.get? 9 = some ' ' := by
      rw [json_message_data]; rfl
    have h9c : ("\x7b\"limit\":210,\"left\":" ++ intToString (210 - v)
        ++ ",\"amount\":" ++ intToString v ++ "\x7d" : String).data.get? 9
        = some '2' := rfl
    rw [h] at h9
    rw [h9c] at h9
    simp at h9

/-- C10: the run is deterministic given the current month and the
spreadsheet contents — the published topic/payload list does not depend on
the connection acknowledgments the broker happens to deliver, as long as
at least one arrives. -/
theorem run_deterministic (rows : List (List Int)) (month : Nat)
    (e1 e2 : List Nat) (h1 : e1 ≠ []) (h2 : e2 ≠ []) :
    run_publishes rows month e1 = run_publishes rows month e2 := by
  cases e1 with
  | nil => exact absurd rfl h1
  | cons a r1 =>
    cases e2 with
    | nil => exact absurd rfl h2
    | cons b r2 =>
      cases hread : read_value_from_file rows month with
      | none => simp [run_publishes, hread]
      | some v => simp [run_publishes, hread, send_publishes_cons]

/-- C10 witness: two concrete runs with the same grid and month but
different delivered reason codes publish the same messages. -/
theorem run_deterministic_witness :
    run_publishes testGrid 3 [0] = run_publishes testGrid 3 [135, 7] :=
  run_deterministic testGrid 3 [0] [135, 7] (by decide) (by decide)

end FuelBot
